import Mathlib

/-!
Shallow embedding of the task-management repository's data model and
synchronization layer (backend/models.py, backend/sync.py,
backend/sync_improved.py), together with theorems settling the frozen
claims about it.

Conventions of the embedding:
* Python `int` is modelled as `Int` (counts that are provably non-negative
  use `Nat`); Python float arithmetic on derived percentages is modelled
  by exact rational arithmetic (`ℚ`), with Python's `round(x, 1)`
  (round-half-to-even) modelled by `pyRound1` and `int(x)` truncation of a
  non-negative quotient modelled by `Nat` division.
* Python dicts built by repeated `d[k] = d.get(k, 0) + 1` are modelled as
  insertion-ordered association lists (`dictIncr`).
* Wall-clock timestamps (`datetime.now().isoformat()`) are threaded as an
  explicit `now : String` parameter.
* The Supabase table `daily_tasks` is modelled as a list of records keyed
  by date (`RemoteDB`); a query that can fail at the network level is an
  `Except String` value.  The on-disk cache directory is an association
  list from date strings to stored `DailyTasks` values (`CacheStore`).
* Pydantic validation runs at construction from raw data
  (`validateTask` / `revalidateDailyTasks`); plain attribute assignment
  (`setattr` and `self.field = ...`) stores into a declared field without
  validation (the models do not enable `validate_assignment`), raises the
  no-field error on any other attribute name, and an ill-typed store into
  a declared field — which Python would accept unchecked — is outside this
  typed embedding and marked by `none`.
-/

set_option autoImplicit false

namespace TMS

/-! ## Enumerations (models.py: Priority, TaskStatus, TimeBlock, Category) -/

inductive Priority where
  | P1 | P2 | P3
deriving DecidableEq, Repr, Fintype

def Priority.value : Priority → String
  | .P1 => "P1"
  | .P2 => "P2"
  | .P3 => "P3"

inductive TaskStatus where
  | not_started | in_progress | completed | blocked | cancelled
deriving DecidableEq, Repr

def TaskStatus.value : TaskStatus → String
  | .not_started => "not_started"
  | .in_progress => "in_progress"
  | .completed => "completed"
  | .blocked => "blocked"
  | .cancelled => "cancelled"

inductive TimeBlock where
  | morning | afternoon | evening
deriving DecidableEq, Repr

inductive Category where
  | development | design | admin | learning | personal | meeting | planning
deriving DecidableEq, Repr, Fintype

def Category.value : Category → String
  | .development => "development"
  | .design => "design"
  | .admin => "admin"
  | .learning => "learning"
  | .personal => "personal"
  | .meeting => "meeting"
  | .planning => "planning"

/-! ## Subtask and Task (models.py lines 49-147) -/

structure Subtask where
  id : String
  title : String
  completed : Bool := false
  notes : Option String := none
deriving DecidableEq, Repr

structure Task where
  id : String
  title : String
  description : String := ""
  priority : Priority := .P2
  status : TaskStatus := .not_started
  progress : Int := 0
  category : Category := .admin
  estimated_minutes : Int := 30
  actual_minutes : Int := 0
  time_block : Option TimeBlock := none
  subtasks : List Subtask := []
  notes : List String := []
  success_criteria : Option String := none
  dependencies : List String := []
  tags : List String := []
  created_at : String := ""
  updated_at : String := ""
  completed_at : Option String := none
deriving DecidableEq, Repr

/-- `Task.mark_completed` (models.py 112-117). -/
def Task.mark_completed (t : Task) (now : String) : Task :=
  { t with status := .completed, progress := 100,
           completed_at := some now, updated_at := now }

/-- The first subtask whose id matches is marked completed; `none` when no
subtask has the id (the loop body of `complete_subtask`, models.py 128-134). -/
def markFirst : List Subtask → String → Option (List Subtask)
  | [], _ => none
  | st :: rest, sid =>
      if st.id = sid then some ({ st with completed := true } :: rest)
      else (markFirst rest sid).map (st :: ·)

/-- `Task._update_progress_from_subtasks` (models.py 136-147): recompute
`progress = int((completed / total) * 100)` (exact truncated division here)
and auto-complete the task when every subtask is done. -/
def Task.update_progress_from_subtasks (t : Task) (now : String) : Task :=
  if t.subtasks.isEmpty then t
  else
    let c := (t.subtasks.filter (fun st => st.completed)).length
    let tot := t.subtasks.length
    let t1 := { t with progress := ((100 * c) / tot : Nat) }
    if c = tot ∧ t.status ≠ .completed then t1.mark_completed now else t1

/-- `Task.complete_subtask` (models.py 126-134): mark the first subtask with
the given id, refresh `updated_at`, recompute progress; `false` when the id
does not occur. -/
def Task.complete_subtask (t : Task) (now sid : String) : Task × Bool :=
  match markFirst t.subtasks sid with
  | none => (t, false)
  | some sts =>
      (Task.update_progress_from_subtasks { t with subtasks := sts, updated_at := now } now, true)

/-! ## Rounding and frequency dictionaries -/

/-- Python's `round` to an integer: round half to even. -/
def roundHalfEven (q : ℚ) : ℤ :=
  if q - ⌊q⌋ < 1/2 then ⌊q⌋
  else if 1/2 < q - ⌊q⌋ then ⌊q⌋ + 1
  else if ⌊q⌋ % 2 = 0 then ⌊q⌋ else ⌊q⌋ + 1

/-- Python's `round(x, 1)`. -/
def pyRound1 (q : ℚ) : ℚ := (roundHalfEven (q * 10) : ℚ) / 10

/-- First-match lookup in an insertion-ordered association list. -/
def alookup {α : Type} (k : String) : List (String × α) → Option α
  | [] => none
  | p :: rest => if p.1 = k then some p.2 else alookup k rest

/-- One step of `d[k] = d.get(k, 0) + 1` on a Python dict: update the entry
in place when present, append a fresh entry otherwise. -/
def dictIncr (d : List (String × Nat)) (k : String) : List (String × Nat) :=
  match alookup k d with
  | some _ => d.map (fun p => if p.1 = k then (p.1, p.2 + 1) else p)
  | none => d ++ [(k, 1)]

/-! ## DaySummary (models.py 150-202) -/

structure DaySummary where
  total_tasks : Nat := 0
  completed_tasks : Nat := 0
  in_progress_tasks : Nat := 0
  blocked_tasks : Nat := 0
  total_estimated_minutes : Int := 0
  total_actual_minutes : Int := 0
  completion_percentage : ℚ := 0
  categories : List (String × Nat) := []
  priorities : List (String × Nat) := []
deriving DecidableEq, Repr

/-- `DaySummary.from_tasks` (models.py 162-202). -/
def DaySummary.from_tasks (tasks : List Task) : DaySummary :=
  if tasks.isEmpty then {}
  else
    let completed := (tasks.filter (fun t => t.status = .completed)).length
    let in_progress := (tasks.filter (fun t => t.status = .in_progress)).length
    let blocked := (tasks.filter (fun t => t.status = .blocked)).length
    let estimated := (tasks.map (fun t => t.estimated_minutes)).sum
    let actual := (tasks.map (fun t => t.actual_minutes)).sum
    let completion : ℚ := ((completed : ℚ) / (tasks.length : ℚ)) * 100
    { total_tasks := tasks.length
      completed_tasks := completed
      in_progress_tasks := in_progress
      blocked_tasks := blocked
      total_estimated_minutes := estimated
      total_actual_minutes := actual
      completion_percentage := pyRound1 completion
      categories := tasks.foldl (fun d t => dictIncr d t.category.value) []
      priorities := tasks.foldl (fun d t => dictIncr d t.priority.value) [] }

/-! ## DailyTasks (models.py 205-255) -/

structure DailyTasks where
  date : String
  tasks : List Task := []
  summary : DaySummary := {}
deriving DecidableEq, Repr

/-- `DailyTasks.update_summary` (models.py 241-243). -/
def DailyTasks.update_summary (dt : DailyTasks) : DailyTasks :=
  { dt with summary := DaySummary.from_tasks dt.tasks }

/-- `DailyTasks.add_task` (models.py 220-223): append, then recompute the
summary. -/
def DailyTasks.add_task (dt : DailyTasks) (t : Task) : DailyTasks :=
  DailyTasks.update_summary { dt with tasks := dt.tasks ++ [t] }

/-- `DailyTasks.remove_task` (models.py 225-232): filter the id out; the
summary is recomputed only when something was removed. -/
def DailyTasks.remove_task (dt : DailyTasks) (task_id : String) : DailyTasks × Bool :=
  let tasks1 := dt.tasks.filter (fun t => t.id ≠ task_id)
  if tasks1.length < dt.tasks.length then
    (DailyTasks.update_summary { dt with tasks := tasks1 }, true)
  else
    ({ dt with tasks := tasks1 }, false)

/-- `DailyTasks.get_task` (models.py 234-239). -/
def DailyTasks.get_task (dt : DailyTasks) (task_id : String) : Option Task :=
  dt.tasks.find? (fun t => t.id = task_id)

/-! ## Construction-time validation (pydantic `Field` constraints and the
`@validator` hooks of models.py; these run when a model is built from raw
data, e.g. `Task(**d)` / `DailyTasks(**d)`, and are not re-run on plain
attribute assignment because `validate_assignment` is not enabled). -/

def digitVal (c : Char) : Nat := c.toNat - 48

def daysInMonth (y m : Nat) : Nat :=
  if m = 2 then (if (y % 4 = 0 ∧ y % 100 ≠ 0) ∨ y % 400 = 0 then 29 else 28)
  else if m = 4 ∨ m = 6 ∨ m = 9 ∨ m = 11 then 30 else 31

/-- `DailyTasks.validate_date_format` (models.py 211-218): the canonical
`YYYY-MM-DD` form accepted by `date.fromisoformat` (years 0001-9999,
Gregorian month lengths with leap years). -/
def pyDateValid (s : String) : Bool :=
  match s.toList with
  | [y1, y2, y3, y4, sep1, m1, m2, sep2, d1, d2] =>
      if y1.isDigit ∧ y2.isDigit ∧ y3.isDigit ∧ y4.isDigit ∧ sep1 = '-' ∧
         m1.isDigit ∧ m2.isDigit ∧ sep2 = '-' ∧ d1.isDigit ∧ d2.isDigit then
        let y := digitVal y1 * 1000 + digitVal y2 * 100 + digitVal y3 * 10 + digitVal y4
        let m := digitVal m1 * 10 + digitVal m2
        let d := digitVal d1 * 10 + digitVal d2
        decide (1 ≤ y ∧ 1 ≤ m ∧ m ≤ 12 ∧ 1 ≤ d ∧ d ≤ daysInMonth y m)
      else false
  | _ => false

/-- Construction of a `Task` from raw data: the `Field` range constraints
(models.py 57-84) reject out-of-range values, then the `validate_progress`
and `set_completed_at` validators (models.py 86-104) normalize the
progress/status and completed_at/status couplings. -/
def validateTask (now : String) (t : Task) : Option Task :=
  if 1 ≤ t.title.length ∧ t.title.length ≤ 200 ∧
     t.description.length ≤ 1000 ∧
     0 ≤ t.progress ∧ t.progress ≤ 100 ∧
     5 ≤ t.estimated_minutes ∧ t.estimated_minutes ≤ 480 ∧
     0 ≤ t.actual_minutes ∧
     (∀ st ∈ t.subtasks, 1 ≤ st.title.length ∧ st.title.length ≤ 200) then
    some { t with
      progress :=
        if t.status = .completed ∧ t.progress ≠ 100 then 100
        else if t.status = .not_started ∧ 0 < t.progress then 0
        else t.progress,
      completed_at :=
        if t.status = .completed ∧ (t.completed_at = none ∨ t.completed_at = some "") then some now
        else if t.status ≠ .completed then none
        else t.completed_at }
  else none

def validateTasks (now : String) : List Task → Option (List Task)
  | [] => some []
  | t :: rest =>
      match validateTask now t, validateTasks now rest with
      | some t1, some r => some (t1 :: r)
      | _, _ => none

/-- Rebuilding `DailyTasks(**data)` from dumped data: validates the date
format and every task; the summary has no constraints and passes through
unchanged (it is not recomputed). -/
def revalidateDailyTasks (now : String) (dt : DailyTasks) : Option DailyTasks :=
  if pyDateValid dt.date then
    match validateTasks now dt.tasks with
    | some ts => some { date := dt.date, tasks := ts, summary := dt.summary }
    | none => none
  else none

/-- The entity invariants of a stored `Task`: field ranges plus the
progress/status and completed_at/status couplings that construction-time
validation establishes. -/
def TaskValid (t : Task) : Prop :=
  1 ≤ t.title.length ∧ t.title.length ≤ 200 ∧
  t.description.length ≤ 1000 ∧
  0 ≤ t.progress ∧ t.progress ≤ 100 ∧
  5 ≤ t.estimated_minutes ∧ t.estimated_minutes ≤ 480 ∧
  0 ≤ t.actual_minutes ∧
  (∀ st ∈ t.subtasks, 1 ≤ st.title.length ∧ st.title.length ≤ 200) ∧
  (t.status = .completed → t.progress = 100 ∧ t.completed_at ≠ none ∧ t.completed_at ≠ some "") ∧
  (t.status = .not_started → t.progress = 0) ∧
  (t.status ≠ .completed → t.completed_at = none)

instance (t : Task) : Decidable (TaskValid t) := by unfold TaskValid; infer_instance

def DailyTasksValid (dt : DailyTasks) : Prop :=
  pyDateValid dt.date = true ∧ ∀ t ∈ dt.tasks, TaskValid t

instance (dt : DailyTasks) : Decidable (DailyTasksValid dt) := by
  unfold DailyTasksValid; infer_instance

/-! ## Attribute assignment (`setattr`, sync.py 242-244)

The pydantic models do not enable `validate_assignment`, so assigning to a
declared model field stores the value without running any validator.
`hasattr` is true not only for the declared fields but also for the other
attributes of a `Task` object — in particular the methods and validators
defined on the class — and `setattr` on such a non-field attribute raises
pydantic's no-field `ValueError`.  Python can also store a value of a
different runtime type into a declared field (unchecked); that state has
no representation in this typed embedding, so `fieldSetter` is `none` there
and the update functions propagate the `none` outward. -/

inductive PyValue where
  | pstr (s : String)
  | pint (n : Int)
  | ppri (p : Priority)
  | pstat (s : TaskStatus)
  | pcat (c : Category)
  | ptb (b : Option TimeBlock)
  | psubs (l : List Subtask)
  | pstrs (l : List String)
  | popt (s : Option String)
deriving DecidableEq, Repr

def taskFieldNames : List String :=
  ["id", "title", "description", "priority", "status", "progress", "category",
   "estimated_minutes", "actual_minutes", "time_block", "subtasks", "notes",
   "success_criteria", "dependencies", "tags", "created_at", "updated_at",
   "completed_at"]

def hasTaskField (k : String) : Bool := taskFieldNames.contains k

/-- The non-field attributes that models.py itself defines on `Task`: its
methods and validators.  `hasattr` is true for all of these, and `setattr`
on any of them raises.  (The pydantic base class contributes further
non-field attributes that behave the same way; keys outside this list and
outside `taskFieldNames` are modelled as absent attributes.) -/
def taskMethodNames : List String :=
  ["add_note", "mark_completed", "add_subtask", "complete_subtask",
   "_update_progress_from_subtasks", "validate_progress", "set_completed_at"]

/-- `hasattr(task, k)` over the attribute surface defined in models.py:
the declared fields plus the class's methods and validators. -/
def hasTaskAttr (k : String) : Bool := hasTaskField k || taskMethodNames.contains k

/-- The store performed by `setattr` on a declared field when the value has
the field's declared type; `none` when it does not (Python would store the
value unchecked, a state outside this embedding's typed `Task`). -/
def fieldSetter (k : String) (v : PyValue) : Option (Task → Task) :=
  match k, v with
  | "id", .pstr s => some (fun t => { t with id := s })
  | "title", .pstr s => some (fun t => { t with title := s })
  | "description", .pstr s => some (fun t => { t with description := s })
  | "priority", .ppri p => some (fun t => { t with priority := p })
  | "status", .pstat s => some (fun t => { t with status := s })
  | "progress", .pint n => some (fun t => { t with progress := n })
  | "category", .pcat c => some (fun t => { t with category := c })
  | "estimated_minutes", .pint n => some (fun t => { t with estimated_minutes := n })
  | "actual_minutes", .pint n => some (fun t => { t with actual_minutes := n })
  | "time_block", .ptb b => some (fun t => { t with time_block := b })
  | "subtasks", .psubs l => some (fun t => { t with subtasks := l })
  | "notes", .pstrs l => some (fun t => { t with notes := l })
  | "success_criteria", .popt s => some (fun t => { t with success_criteria := s })
  | "dependencies", .pstrs l => some (fun t => { t with dependencies := l })
  | "tags", .pstrs l => some (fun t => { t with tags := l })
  | "created_at", .pstr s => some (fun t => { t with created_at := s })
  | "updated_at", .pstr s => some (fun t => { t with updated_at := s })
  | "completed_at", .popt s => some (fun t => { t with completed_at := s })
  | _, _ => none

/-- Total wrapper over `fieldSetter` for the assignment examples: applied
only on `fieldSetter`'s domain, a declared field name with a value of the
field's declared type. -/
def setTaskField (t : Task) (k : String) (v : PyValue) : Task :=
  match fieldSetter k v with
  | some f => f t
  | none => t

/-- The update loop of `TaskSync.update_task` (sync.py 242-244): an entry
whose key is no attribute of the object is silently skipped; an entry whose
key names a declared field stores its value; an entry whose key names a
non-field attribute (a method) makes `setattr` raise the no-field error,
surfaced as `Except.error` for the caller's `except` block.  `none` marks
an ill-typed field store, which this embedding cannot represent. -/
def applyTaskUpdates : Task → List (String × PyValue) → Option (Except String Task)
  | t, [] => some (.ok t)
  | t, kv :: rest =>
      if hasTaskAttr kv.1 then
        if hasTaskField kv.1 then
          match fieldSetter kv.1 kv.2 with
          | some f => applyTaskUpdates (f t) rest
          | none => none
        else some (.error ("object has no field " ++ kv.1))
      else applyTaskUpdates t rest

/-- The task-location loop of `update_task` (sync.py 238-247): the first
task with the given id receives the updates and a fresh `updated_at`;
`.ok none` when the id is absent, `.error` when the update loop raised. -/
def updateFirstTask (ts : List Task) (task_id : String)
    (updates : List (String × PyValue)) (now : String) :
    Option (Except String (Option (List Task))) :=
  match ts with
  | [] => some (.ok none)
  | t :: rest =>
      if t.id = task_id then
        match applyTaskUpdates t updates with
        | none => none
        | some (.error e) => some (.error e)
        | some (.ok t1) => some (.ok (some ({ t1 with updated_at := now } :: rest)))
      else
        match updateFirstTask rest task_id updates now with
        | none => none
        | some (.error e) => some (.error e)
        | some (.ok none) => some (.ok none)
        | some (.ok (some ts1)) => some (.ok (some (t :: ts1)))

/-! ## Remote store and local cache -/

/-- The `daily_tasks` table: rows of date/tasks/summary payloads, with a
unique constraint on `date`. -/
abbrev RemoteDB := List DailyTasks

/-- The `data/daily` cache directory: one stored payload per date. -/
abbrev CacheStore := List (String × DailyTasks)

/-- `ImprovedTaskSync._record_exists` (sync_improved.py 99-109). -/
def record_exists (db : RemoteDB) (d : String) : Bool :=
  db.any (fun r => r.date = d)

/-- An insert on `daily_tasks`: rejected with the database's duplicate-key
message when a row with the same date is present. -/
def remoteInsert (db : RemoteDB) (rec : DailyTasks) : Except String RemoteDB :=
  if record_exists db rec.date then
    .error "duplicate key value violates unique constraint"
  else .ok (db ++ [rec])

/-- An update filtered on `date`: returns the new table plus the list of
affected rows (the client's `response.data`). -/
def remoteUpdate (db : RemoteDB) (d : String) (rec : DailyTasks) :
    RemoteDB × List DailyTasks :=
  ((db.map fun r => if r.date = d then rec else r),
   (db.filter fun r => r.date = d).map fun _ => rec)

/-- The single-call `upsert` used by `TaskSync.push_tasks` (sync.py 120). -/
def remoteUpsert (db : RemoteDB) (rec : DailyTasks) : RemoteDB :=
  if record_exists db rec.date then (remoteUpdate db rec.date rec).1
  else db ++ [rec]

/-- `SyncResult` (sync.py 30-36). -/
structure SyncResult where
  success : Bool
  message : String
  data : Option DailyTasks := none
  error : Option String := none
deriving DecidableEq, Repr

/-- The enhanced `SyncResult` (sync_improved.py 37-45). -/
structure ImpSyncResult where
  success : Bool
  message : String
  data : Option DailyTasks := none
  error : Option String := none
  error_type : Option String := none
  suggested_fix : Option String := none
deriving DecidableEq, Repr

/-- `_save_local_copy` (sync.py 69-76 / sync_improved.py 111-120):
overwrite the date's snapshot. -/
def save_local_copy (cache : CacheStore) (dt : DailyTasks) : CacheStore :=
  (dt.date, dt) :: cache.filter (fun p => p.1 ≠ dt.date)

/-- `_load_local_copy` (sync.py 78-88 / sync_improved.py 122-136): look the
date up and rebuild `DailyTasks(**data)`; any validation failure is a
warning that yields `None`. -/
def load_local_copy (now : String) (cache : CacheStore) (target_date : String) :
    Option DailyTasks :=
  match alookup target_date cache with
  | none => none
  | some dt => revalidateDailyTasks now dt

/-! ## String classification helpers (sync_improved.py 196-210) -/

def listContains (pat : List Char) : List Char → Bool
  | [] => pat.isEmpty
  | c :: rest => pat.isPrefixOf (c :: rest) || listContains pat rest

/-- Python's `str.lower()`. -/
def pyLower (s : String) : String := String.mk (s.toList.map Char.toLower)

/-- Python's `pat in s` on strings. -/
def strContains (s pat : String) : Bool := listContains pat.toList s.toList

/-- The error classification of `push_tasks_smart`'s `except` block
(sync_improved.py 196-210): error_type and suggested_fix from the message. -/
def classifyError (msg : String) : String × String :=
  if strContains (pyLower msg) "duplicate key" then
    ("constraint_violation", "Record already exists. Try using UPDATE instead of INSERT.")
  else if strContains (pyLower msg) "permission" then
    ("permission_error", "Check Supabase API key permissions")
  else if strContains (pyLower msg) "network" || strContains (pyLower msg) "connection" then
    ("network_error", "Check internet connection and Supabase URL")
  else ("unknown_error", "Check logs for details")

/-! ## Push / pull operations

A remote interaction that can fail at the network level is an
`Except String RemoteDB`.  `push_tasks_smart` takes two table snapshots:
`dbCheck`, seen by the existence check, and `dbWrite`, current when the
insert/update executes — they differ exactly when a concurrent writer
changed the table in between. -/

/-- `TaskSync.push_tasks` (sync.py 90-140): build the day, recompute the
summary, save the local copy, then upsert. -/
def push_tasks (remote : Except String RemoteDB) (cache : CacheStore)
    (tasks : List Task) (target_date : String) :
    SyncResult × CacheStore × Except String RemoteDB :=
  if pyDateValid target_date then
    let dt : DailyTasks := { date := target_date, tasks := tasks,
                             summary := DaySummary.from_tasks tasks }
    let cache1 := save_local_copy cache dt
    match remote with
    | .error e =>
        ({ success := false, message := "Error pushing tasks for " ++ target_date,
           error := some e }, cache1, remote)
    | .ok db =>
        ({ success := true,
           message := "Successfully pushed tasks for " ++ target_date,
           data := some dt }, cache1, .ok (remoteUpsert db dt))
  else
    ({ success := false, message := "Error pushing tasks for " ++ target_date,
       error := some "Date must be in YYYY-MM-DD format" }, cache, remote)

/-- `ImprovedTaskSync.push_tasks_smart` (sync_improved.py 138-218):
check-then-insert-or-update; a failed insert is classified and reported,
not retried. -/
def push_tasks_smart (dbCheck dbWrite : RemoteDB) (cache : CacheStore)
    (tasks : List Task) (target_date : String) :
    ImpSyncResult × CacheStore × RemoteDB :=
  if pyDateValid target_date then
    let dt : DailyTasks := { date := target_date, tasks := tasks,
                             summary := DaySummary.from_tasks tasks }
    let cache1 := save_local_copy cache dt
    if record_exists dbCheck target_date then
      let upd := remoteUpdate dbWrite target_date dt
      if upd.2.isEmpty then
        ({ success := false, message := "Failed to sync tasks for " ++ target_date,
           error := some "No data returned from Supabase",
           error_type := some "database_error",
           suggested_fix := some "Check Supabase table permissions and schema" },
         cache1, dbWrite)
      else
        ({ success := true, message := "Successfully updated tasks for " ++ target_date,
           data := upd.2.head? }, cache1, upd.1)
    else
      match remoteInsert dbWrite dt with
      | .ok db1 =>
          ({ success := true, message := "Successfully created tasks for " ++ target_date,
             data := some dt }, cache1, db1)
      | .error e =>
          ({ success := false, message := "Error syncing tasks for " ++ target_date,
             error := some e,
             error_type := some (classifyError e).1,
             suggested_fix := some (classifyError e).2 }, cache1, dbWrite)
  else
    ({ success := false, message := "Error syncing tasks for " ++ target_date,
       error := some "Date must be in YYYY-MM-DD format",
       error_type := some (classifyError "Date must be in YYYY-MM-DD format").1,
       suggested_fix := some (classifyError "Date must be in YYYY-MM-DD format").2 },
     cache, dbWrite)

/-- `TaskSync.pull_tasks` (sync.py 142-212).  The `.single()` call raises
when the date matches no row (or several), so absence flows through the
`except` block: local fallback only when `use_cache` is false, otherwise a
failure result. -/
def pull_tasks (remote : Except String RemoteDB) (cache : CacheStore)
    (target_date now : String) (use_cache : Bool) : SyncResult × CacheStore :=
  match (if use_cache then load_local_copy now cache target_date else none) with
  | some dt =>
      ({ success := true, message := "Loaded tasks from local cache for " ++ target_date,
         data := some dt }, cache)
  | none =>
      let fallback : String → SyncResult × CacheStore := fun e =>
        if use_cache then
          ({ success := false, message := "Error pulling tasks for " ++ target_date,
             error := some e }, cache)
        else
          match load_local_copy now cache target_date with
          | some dt =>
              ({ success := true,
                 message := "Loaded tasks from local cache (Supabase unavailable)",
                 data := some dt }, cache)
          | none =>
              ({ success := false, message := "Error pulling tasks for " ++ target_date,
                 error := some e }, cache)
      match remote with
      | .error e => fallback e
      | .ok db =>
          match (db.filter fun r => r.date = target_date) with
          | [row] =>
              match revalidateDailyTasks now row with
              | some dt =>
                  ({ success := true, message := "Pulled tasks for " ++ target_date,
                     data := some dt }, save_local_copy cache dt)
              | none => fallback "validation error"
          | _ => fallback "JSON object requested, multiple (or no) rows returned"

/-- `ImprovedTaskSync.pull_tasks` (sync_improved.py 237-303): remote first,
cache fallback on error or absence, and an explicit success-with-empty-data
result when neither side has the date. -/
def improved_pull_tasks (remote : Except String RemoteDB) (cache : CacheStore)
    (target_date now : String) (use_cache : Bool) : ImpSyncResult × CacheStore :=
  match (if use_cache then load_local_copy now cache target_date else none) with
  | some dt =>
      ({ success := true, message := "Loaded tasks from local cache for " ++ target_date,
         data := some dt }, cache)
  | none =>
      match remote with
      | .error e =>
          match load_local_copy now cache target_date with
          | some dt =>
              ({ success := true,
                 message := "Loaded tasks from local cache (Supabase error)",
                 data := some dt }, cache)
          | none =>
              ({ success := false, message := "Error pulling tasks for " ++ target_date,
                 error := some e, error_type := some "database_error",
                 suggested_fix := some "Check connection and try local cache" }, cache)
      | .ok db =>
          match (db.filter fun r => r.date = target_date) with
          | row :: _ =>
              match revalidateDailyTasks now row with
              | some dt =>
                  ({ success := true, message := "Pulled tasks for " ++ target_date,
                     data := some dt }, save_local_copy cache dt)
              | none =>
                  match load_local_copy now cache target_date with
                  | some dt =>
                      ({ success := true,
                         message := "Loaded tasks from local cache (Supabase error)",
                         data := some dt }, cache)
                  | none =>
                      ({ success := false,
                         message := "Error pulling tasks for " ++ target_date,
                         error := some "validation error",
                         error_type := some "database_error",
                         suggested_fix := some "Check connection and try local cache" },
                       cache)
          | [] =>
              match load_local_copy now cache target_date with
              | some dt =>
                  ({ success := true,
                     message := "Loaded tasks from local cache (Supabase returned no data)",
                     data := some dt }, cache)
              | none =>
                  if pyDateValid target_date then
                    ({ success := true, message := "No tasks found for " ++ target_date,
                       data := some { date := target_date } }, cache)
                  else
                    ({ success := false,
                       message := "Error pulling tasks for " ++ target_date,
                       error := some "Date must be in YYYY-MM-DD format",
                       error_type := some "database_error",
                       suggested_fix := some "Check connection and try local cache" },
                     cache)

/-- `TaskSync.update_task` (sync.py 214-264): pull (cache first), rebuild
`DailyTasks(**result.data)`, patch the first task with the given id via
`hasattr`-guarded `setattr`, then push the whole set.  A `setattr` on a
non-field attribute raises and lands in the function's `except` block,
yielding a failure result; `none` marks the ill-typed field store this
embedding cannot represent. -/
def update_task (remote : Except String RemoteDB) (cache : CacheStore)
    (task_id : String) (updates : List (String × PyValue)) (target_date now : String) :
    Option (SyncResult × CacheStore × Except String RemoteDB) :=
  let pr := pull_tasks remote cache target_date now true
  if pr.1.success then
    match pr.1.data with
    | none =>
        some ({ success := false, message := "Error updating task " ++ task_id,
                error := some "argument error" }, pr.2, remote)
    | some dtRaw =>
        match revalidateDailyTasks now dtRaw with
        | none =>
            some ({ success := false, message := "Error updating task " ++ task_id,
                    error := some "validation error" }, pr.2, remote)
        | some dt =>
            match updateFirstTask dt.tasks task_id updates now with
            | none => none
            | some (.error e) =>
                some ({ success := false,
                        message := "Error updating task " ++ task_id,
                        error := some e }, pr.2, remote)
            | some (.ok none) =>
                some ({ success := false,
                        message := "Task " ++ task_id ++ " not found in " ++ target_date,
                        error := some "Task not found" }, pr.2, remote)
            | some (.ok (some tasks1)) =>
                some (push_tasks remote pr.2 tasks1 target_date)
  else some (pr.1, pr.2, remote)

/-! ## Concrete sample data used by witnesses and counterexamples -/

def sampleTask : Task :=
  { id := "t1", title := "Write spec",
    created_at := "2025-01-29T08:00:00", updated_at := "2025-01-29T08:00:00" }

def sampleSubtaskDay : Task :=
  { id := "t2", title := "Subtask day",
    subtasks := [{ id := "s1", title := "first" }, { id := "s2", title := "second" }],
    created_at := "2025-01-29T08:00:00", updated_at := "2025-01-29T08:00:00" }

def sampleDay : DailyTasks :=
  { date := "2025-01-29", tasks := [sampleTask],
    summary := DaySummary.from_tasks [sampleTask] }

/-! ## Helper lemmas about status counting and frequency dictionaries -/

theorem statusPartition (ts : List Task) :
    (ts.filter (fun t => t.status = .completed)).length +
    (ts.filter (fun t => t.status = .in_progress)).length +
    (ts.filter (fun t => t.status = .blocked)).length +
    (ts.filter (fun t => t.status = .not_started)).length +
    (ts.filter (fun t => t.status = .cancelled)).length = ts.length := by
  induction ts with
  | nil => simp
  | cons t ts ih =>
      cases h : t.status <;> simp [List.filter_cons, h] <;> omega

theorem alookup_append {α : Type} (k : String) (d1 d2 : List (String × α)) :
    alookup k (d1 ++ d2) =
      match alookup k d1 with
      | some v => some v
      | none => alookup k d2 := by
  induction d1 with
  | nil => simp [alookup]
  | cons p d1 ih => by_cases hp : p.1 = k <;> simp [alookup, hp, ih]

theorem alookup_map_incr (d : List (String × Nat)) (k : String) :
    alookup k (d.map (fun p => if p.1 = k then (p.1, p.2 + 1) else p)) =
      (alookup k d).map (· + 1) := by
  induction d with
  | nil => simp [alookup]
  | cons p d ih => by_cases hp : p.1 = k <;> simp [alookup, hp, ih]

theorem alookup_map_other (d : List (String × Nat)) (k k2 : String) (h : ¬ k = k2) :
    alookup k2 (d.map (fun p => if p.1 = k then (p.1, p.2 + 1) else p)) =
      alookup k2 d := by
  induction d with
  | nil => simp [alookup]
  | cons p d ih =>
      have h2 : ¬ k2 = k := fun hh => h hh.symm
      by_cases hp : p.1 = k
      · have hne : ¬ p.1 = k2 := by rw [hp]; exact h
        simp [alookup, hp, hne, h, ih]
      · by_cases hq : p.1 = k2 <;> simp [alookup, hp, hq, h2, ih]

theorem alookup_dictIncr_self (d : List (String × Nat)) (k : String) :
    alookup k (dictIncr d k) = some ((alookup k d).getD 0 + 1) := by
  unfold dictIncr
  cases h : alookup k d with
  | none => simp only [h]; rw [alookup_append]; simp [h, alookup]
  | some v => simp only [h]; rw [alookup_map_incr]; simp [h]

theorem alookup_dictIncr_other (d : List (String × Nat)) (k k2 : String)
    (h : ¬ k = k2) :
    alookup k2 (dictIncr d k) = alookup k2 d := by
  unfold dictIncr
  cases hl : alookup k d with
  | none =>
      simp only [hl]
      rw [alookup_append]
      cases h2 : alookup k2 d <;> simp [alookup, h, h2]
  | some v => simp only [hl]; exact alookup_map_other d k k2 h

theorem alookup_foldl_dictIncr_some (l : List String) (k : String) :
    ∀ (m : Nat) (d : List (String × Nat)), alookup k d = some m →
      alookup k (l.foldl dictIncr d) =
        some (m + (l.filter (fun s => s = k)).length) := by
  induction l with
  | nil => intro m d h; simpa using h
  | cons s l ih =>
      intro m d h
      by_cases hs : s = k
      · subst hs
        have h1 : alookup s (dictIncr d s) = some (m + 1) := by
          rw [alookup_dictIncr_self, h]; rfl
        rw [List.foldl_cons, ih (m + 1) _ h1, List.filter_cons]
        simp [Nat.add_assoc, Nat.add_comm 1]
      · have h1 : alookup k (dictIncr d s) = some m :=
          (alookup_dictIncr_other d s k hs).trans h
        rw [List.foldl_cons, ih m _ h1, List.filter_cons]
        simp [hs]

theorem alookup_foldl_dictIncr_none (l : List String) (k : String) :
    ∀ d : List (String × Nat), alookup k d = none →
      alookup k (l.foldl dictIncr d) =
        (if (l.filter (fun s => s = k)).length = 0 then none
         else some ((l.filter (fun s => s = k)).length)) := by
  induction l with
  | nil => intro d h; simpa using h
  | cons s l ih =>
      intro d h
      by_cases hs : s = k
      · subst hs
        have h1 : alookup s (dictIncr d s) = some 1 := by
          rw [alookup_dictIncr_self, h]; rfl
        rw [List.foldl_cons, alookup_foldl_dictIncr_some l s 1 _ h1, List.filter_cons]
        simp [Nat.add_comm]
      · have h1 : alookup k (dictIncr d s) = none :=
          (alookup_dictIncr_other d s k hs).trans h
        rw [List.foldl_cons, ih _ h1, List.filter_cons]
        simp [hs]

theorem categoryValue_injective : ∀ a b : Category, a.value = b.value → a = b := by
  decide

theorem priorityValue_injective : ∀ a b : Priority, a.value = b.value → a = b := by
  decide

theorem filter_map_category (ts : List Task) (c : Category) :
    ((ts.map (fun t => t.category.value)).filter (fun s => s = c.value)).length =
      (ts.filter (fun t => t.category = c)).length := by
  induction ts with
  | nil => simp
  | cons t ts ih =>
      by_cases h : t.category = c
      · simp [List.filter_cons, h, ih]
      · have hv : ¬ t.category.value = c.value :=
          fun hh => h (categoryValue_injective _ _ hh)
        simp [List.filter_cons, h, hv, ih]

theorem filter_map_priority (ts : List Task) (p : Priority) :
    ((ts.map (fun t => t.priority.value)).filter (fun s => s = p.value)).length =
      (ts.filter (fun t => t.priority = p)).length := by
  induction ts with
  | nil => simp
  | cons t ts ih =>
      by_cases h : t.priority = p
      · simp [List.filter_cons, h, ih]
      · have hv : ¬ t.priority.value = p.value :=
          fun hh => h (priorityValue_injective _ _ hh)
        simp [List.filter_cons, h, hv, ih]

theorem from_tasks_categories (ts : List Task) (c : Category) :
    alookup c.value (DaySummary.from_tasks ts).categories =
      (if (ts.filter (fun t => t.category = c)).length = 0 then none
       else some ((ts.filter (fun t => t.category = c)).length)) := by
  rcases ts with _ | ⟨t, ts⟩
  · simp [DaySummary.from_tasks, alookup]
  · have hfold : (t :: ts).foldl (fun d tk => dictIncr d tk.category.value) [] =
        ((t :: ts).map (fun tk => tk.category.value)).foldl dictIncr [] := by
      rw [List.foldl_map]
    have h0 : alookup c.value ([] : List (String × Nat)) = none := rfl
    simp only [DaySummary.from_tasks, List.isEmpty_cons, Bool.false_eq_true,
      if_false]
    rw [hfold, alookup_foldl_dictIncr_none _ _ _ h0, filter_map_category]

theorem from_tasks_priorities (ts : List Task) (p : Priority) :
    alookup p.value (DaySummary.from_tasks ts).priorities =
      (if (ts.filter (fun t => t.priority = p)).length = 0 then none
       else some ((ts.filter (fun t => t.priority = p)).length)) := by
  rcases ts with _ | ⟨t, ts⟩
  · simp [DaySummary.from_tasks, alookup]
  · have hfold : (t :: ts).foldl (fun d tk => dictIncr d tk.priority.value) [] =
        ((t :: ts).map (fun tk => tk.priority.value)).foldl dictIncr [] := by
      rw [List.foldl_map]
    have h0 : alookup p.value ([] : List (String × Nat)) = none := rfl
    simp only [DaySummary.from_tasks, List.isEmpty_cons, Bool.false_eq_true,
      if_false]
    rw [hfold, alookup_foldl_dictIncr_none _ _ _ h0, filter_map_priority]

/-- C1: `DaySummary.from_tasks` returns exact status counts that partition
the total, unconditional minute sums, the rounded completion percentage
(0 for the empty list, whose summary is all-default), and category/priority
frequency maps that contain exactly the enumeration values occurring at
least once. -/
theorem from_tasks_spec (ts : List Task) :
    (DaySummary.from_tasks ts).total_tasks = ts.length ∧
    (DaySummary.from_tasks ts).completed_tasks =
      (ts.filter (fun t => t.status = .completed)).length ∧
    (DaySummary.from_tasks ts).in_progress_tasks =
      (ts.filter (fun t => t.status = .in_progress)).length ∧
    (DaySummary.from_tasks ts).blocked_tasks =
      (ts.filter (fun t => t.status = .blocked)).length ∧
    (DaySummary.from_tasks ts).completed_tasks +
      (DaySummary.from_tasks ts).in_progress_tasks +
      (DaySummary.from_tasks ts).blocked_tasks +
      (ts.filter (fun t => t.status = .not_started)).length +
      (ts.filter (fun t => t.status = .cancelled)).length =
      (DaySummary.from_tasks ts).total_tasks ∧
    (DaySummary.from_tasks ts).total_estimated_minutes =
      (ts.map (fun t => t.estimated_minutes)).sum ∧
    (DaySummary.from_tasks ts).total_actual_minutes =
      (ts.map (fun t => t.actual_minutes)).sum ∧
    (DaySummary.from_tasks ts).completion_percentage =
      (if ts.length = 0 then 0 else
        pyRound1 (100 * ((ts.filter (fun t => t.status = .completed)).length : ℚ) /
          (ts.length : ℚ))) ∧
    (∀ c : Category, alookup c.value (DaySummary.from_tasks ts).categories =
      (if (ts.filter (fun t => t.category = c)).length = 0 then none
       else some ((ts.filter (fun t => t.category = c)).length))) ∧
    (∀ p : Priority, alookup p.value (DaySummary.from_tasks ts).priorities =
      (if (ts.filter (fun t => t.priority = p)).length = 0 then none
       else some ((ts.filter (fun t => t.priority = p)).length))) ∧
    DaySummary.from_tasks [] = ({} : DaySummary) := by
  refine ⟨?_, ?_, ?_, ?_, ?_, ?_, ?_, ?_,
    from_tasks_categories ts, from_tasks_priorities ts, rfl⟩
  · rcases ts with _ | ⟨t, ts⟩ <;> rfl
  · rcases ts with _ | ⟨t, ts⟩ <;> rfl
  · rcases ts with _ | ⟨t, ts⟩ <;> rfl
  · rcases ts with _ | ⟨t, ts⟩ <;> rfl
  · rcases ts with _ | ⟨t, ts⟩
    · rfl
    · exact statusPartition (t :: ts)
  · rcases ts with _ | ⟨t, ts⟩ <;> rfl
  · rcases ts with _ | ⟨t, ts⟩ <;> rfl
  · rcases ts with _ | ⟨t, ts⟩
    · rfl
    · simp only [DaySummary.from_tasks, List.isEmpty_cons, Bool.false_eq_true,
        if_false, List.length_cons]
      rw [if_neg (Nat.succ_ne_zero _)]
      congr 1
      ring

/-! ## Subtask completion -/

theorem markFirst_spec (sts : List Subtask) (sid : String)
    (h : sid ∈ sts.map Subtask.id) :
    ∃ pre st post, sts = pre ++ st :: post ∧ st.id = sid ∧
      (∀ u ∈ pre, u.id ≠ sid) ∧
      markFirst sts sid = some (pre ++ ({ st with completed := true } : Subtask) :: post) := by
  induction sts with
  | nil => simp at h
  | cons a rest ih =>
      by_cases ha : a.id = sid
      · exact ⟨[], a, rest, by simp, ha, by simp, by simp [markFirst, ha]⟩
      · have h2 : sid ∈ rest.map Subtask.id := by
          rcases (by simpa using h : sid = a.id ∨ ∃ b ∈ rest, b.id = sid) with h3 | ⟨b, hb, hbid⟩
          · exact absurd h3.symm ha
          · exact List.mem_map.mpr ⟨b, hb, hbid⟩
        obtain ⟨pre, st, post, hdec, hid, hpre, hmk⟩ := ih h2
        refine ⟨a :: pre, st, post, by simp [hdec], hid, ?_, ?_⟩
        · intro u hu
          rcases List.mem_cons.mp hu with rfl | hu2
          · exact ha
          · exact hpre u hu2
        · simp [markFirst, ha, hmk]

/-- Unfolding of `_update_progress_from_subtasks` when every subtask is
completed and the task is not yet completed: the task auto-completes. -/
theorem update_progress_eq_all (t : Task) (now : String)
    (h : t.subtasks.isEmpty = false)
    (hall : (t.subtasks.filter (fun u => u.completed)).length = t.subtasks.length)
    (hst : t.status ≠ .completed) :
    t.update_progress_from_subtasks now =
      { t with status := .completed, progress := 100,
               completed_at := some now, updated_at := now } := by
  simp only [Task.update_progress_from_subtasks, h, Bool.false_eq_true, if_false]
  rw [if_pos ⟨hall, hst⟩]
  rfl

/-- Unfolding of `_update_progress_from_subtasks` when the auto-completion
condition fails: only the progress field is recomputed. -/
theorem update_progress_eq_partial (t : Task) (now : String)
    (h : t.subtasks.isEmpty = false)
    (hnot : ¬ ((t.subtasks.filter (fun u => u.completed)).length = t.subtasks.length ∧
        t.status ≠ .completed)) :
    t.update_progress_from_subtasks now =
      { t with progress :=
          (((100 * (t.subtasks.filter (fun u => u.completed)).length) /
            t.subtasks.length : Nat) : Int) } := by
  simp only [Task.update_progress_from_subtasks, h, Bool.false_eq_true, if_false]
  rw [if_neg hnot]

/-- C2: completing an existing subtask succeeds, marks the first subtask
with that id, recomputes progress as the truncated percentage of completed
subtasks, auto-completes the task (status, progress 100, completed_at) when
this finishes the last remaining subtask of a not-yet-completed task, and
leaves the status unchanged while a strict subset is completed. -/
theorem complete_subtask_spec (t : Task) (now sid : String)
    (hmem : sid ∈ t.subtasks.map Subtask.id) :
    (t.complete_subtask now sid).2 = true ∧
    ∃ pre st post,
      t.subtasks = pre ++ st :: post ∧ st.id = sid ∧ (∀ u ∈ pre, u.id ≠ sid) ∧
      (t.complete_subtask now sid).1.subtasks =
        pre ++ ({ st with completed := true } : Subtask) :: post ∧
      (t.complete_subtask now sid).1.progress =
        (((100 * ((pre ++ ({ st with completed := true } : Subtask) :: post).filter
            (fun u => u.completed)).length) / t.subtasks.length : Nat) : Int) ∧
      ((((pre ++ ({ st with completed := true } : Subtask) :: post).filter
            (fun u => u.completed)).length = t.subtasks.length ∧ t.status ≠ .completed) →
        (t.complete_subtask now sid).1.status = .completed ∧
        (t.complete_subtask now sid).1.progress = 100 ∧
        (t.complete_subtask now sid).1.completed_at = some now) ∧
      (((pre ++ ({ st with completed := true } : Subtask) :: post).filter
            (fun u => u.completed)).length < t.subtasks.length →
        (t.complete_subtask now sid).1.status = t.status) := by
  obtain ⟨pre, st, post, hdec, hid, hpre, hmk⟩ := markFirst_spec t.subtasks sid hmem
  set sts := pre ++ ({ st with completed := true } : Subtask) :: post with hsts
  set t1 : Task := { t with subtasks := sts, updated_at := now } with ht1
  have hr : t.complete_subtask now sid = (t1.update_progress_from_subtasks now, true) := by
    unfold Task.complete_subtask
    rw [hmk]
  have hne : sts.isEmpty = false := by rw [hsts]; cases pre <;> rfl
  have hlen2 : sts.length = t.subtasks.length := by rw [hsts, hdec]; simp
  have htot : 0 < t.subtasks.length := by rw [hdec]; simp
  by_cases hcase : (sts.filter (fun u => u.completed)).length = t.subtasks.length ∧
      t.status ≠ .completed
  · have heq : t1.update_progress_from_subtasks now =
        { t1 with status := .completed, progress := 100,
                  completed_at := some now, updated_at := now } :=
      update_progress_eq_all t1 now hne (hcase.1.trans hlen2.symm) hcase.2
    refine ⟨by rw [hr], pre, st, post, hdec, hid, hpre, ?_, ?_, ?_, ?_⟩
    · rw [hr, heq]
    · rw [hr, heq]
      rw [hcase.1, Nat.mul_div_cancel _ htot]
      rfl
    · rw [hr, heq]
      intro _
      exact ⟨rfl, rfl, rfl⟩
    · rw [hr, heq]
      intro hlt
      rw [hcase.1] at hlt
      exact absurd hlt (lt_irrefl _)
  · have heq : t1.update_progress_from_subtasks now =
        { t1 with progress :=
            (((100 * (sts.filter (fun u => u.completed)).length) / sts.length : Nat) : Int) } := by
      refine update_progress_eq_partial t1 now hne ?_
      intro hcon
      exact hcase ⟨hcon.1.trans hlen2, hcon.2⟩
    refine ⟨by rw [hr], pre, st, post, hdec, hid, hpre, ?_, ?_, ?_, ?_⟩
    · rw [hr, heq]
    · rw [hr, heq]
      rw [hlen2]
    · rw [hr, heq]
      intro hall
      exact absurd hall hcase
    · rw [hr, heq]
      intro _
      rfl

/-- C2 witness: completing subtask s1 of a two-subtask task. -/
theorem complete_subtask_spec_witness :
    (sampleSubtaskDay.complete_subtask "T" "s1").2 = true ∧
    ∃ pre st post,
      sampleSubtaskDay.subtasks = pre ++ st :: post ∧ st.id = "s1" ∧
      (∀ u ∈ pre, u.id ≠ "s1") ∧
      (sampleSubtaskDay.complete_subtask "T" "s1").1.subtasks =
        pre ++ ({ st with completed := true } : Subtask) :: post ∧
      (sampleSubtaskDay.complete_subtask "T" "s1").1.progress =
        (((100 * ((pre ++ ({ st with completed := true } : Subtask) :: post).filter
            (fun u => u.completed)).length) / sampleSubtaskDay.subtasks.length : Nat) : Int) ∧
      ((((pre ++ ({ st with completed := true } : Subtask) :: post).filter
            (fun u => u.completed)).length = sampleSubtaskDay.subtasks.length ∧
          sampleSubtaskDay.status ≠ .completed) →
        (sampleSubtaskDay.complete_subtask "T" "s1").1.status = .completed ∧
        (sampleSubtaskDay.complete_subtask "T" "s1").1.progress = 100 ∧
        (sampleSubtaskDay.complete_subtask "T" "s1").1.completed_at = some "T") ∧
      (((pre ++ ({ st with completed := true } : Subtask) :: post).filter
            (fun u => u.completed)).length < sampleSubtaskDay.subtasks.length →
        (sampleSubtaskDay.complete_subtask "T" "s1").1.status = sampleSubtaskDay.status) :=
  complete_subtask_spec sampleSubtaskDay "T" "s1" (by decide)

/-- A task already completed that still owns incomplete subtasks. -/
def lateSubtaskTask : Task :=
  { id := "t3", title := "Done with extras", status := .completed, progress := 100,
    completed_at := some "2025-01-28T20:00:00",
    subtasks := [{ id := "s1", title := "first" }, { id := "s2", title := "second" }],
    created_at := "2025-01-28T08:00:00", updated_at := "2025-01-28T20:00:00" }

/-- C9: `complete_subtask` recomputes progress regardless of status — on a
completed task with a remaining incomplete subtask it drops progress below
100 while the status stays completed and completed_at keeps its old value. -/
theorem complete_subtask_on_completed_task (t : Task) (now sid : String)
    (hstat : t.status = .completed)
    (hmem : sid ∈ t.subtasks.map Subtask.id)
    (hrem : ∃ u ∈ t.subtasks, u.id ≠ sid ∧ u.completed = false) :
    (t.complete_subtask now sid).2 = true ∧
    (t.complete_subtask now sid).1.status = .completed ∧
    (t.complete_subtask now sid).1.completed_at = t.completed_at ∧
    (t.complete_subtask now sid).1.progress < 100 := by
  obtain ⟨pre, st, post, hdec, hid, hpre, hmk⟩ := markFirst_spec t.subtasks sid hmem
  obtain ⟨u, hu, hune, huc⟩ := hrem
  set sts := pre ++ ({ st with completed := true } : Subtask) :: post with hsts
  set t1 : Task := { t with subtasks := sts, updated_at := now } with ht1
  have hr : t.complete_subtask now sid = (t1.update_progress_from_subtasks now, true) := by
    unfold Task.complete_subtask
    rw [hmk]
  have hne : sts.isEmpty = false := by rw [hsts]; cases pre <;> rfl
  have hu2 : u ∈ sts := by
    rw [hsts]
    rw [hdec] at hu
    rcases List.mem_append.mp hu with h1 | h1
    · exact List.mem_append.mpr (Or.inl h1)
    · rcases List.mem_cons.mp h1 with rfl | h2
      · exact absurd hid hune
      · exact List.mem_append.mpr (Or.inr (List.mem_cons.mpr (Or.inr h2)))
  have hclt : (sts.filter (fun v => v.completed)).length < sts.length :=
    List.length_filter_lt_length_iff_exists.mpr ⟨u, hu2, by simp [huc]⟩
  have heq : t1.update_progress_from_subtasks now =
      { t1 with progress :=
          (((100 * (sts.filter (fun v => v.completed)).length) / sts.length : Nat) : Int) } := by
    refine update_progress_eq_partial t1 now hne ?_
    rintro ⟨h1, h2⟩
    exact h2 hstat
  refine ⟨by rw [hr], ?_, ?_, ?_⟩
  · rw [hr, heq]
    exact hstat
  · rw [hr, heq]
  · rw [hr, heq]
    have hpos : 0 < sts.length := by rw [hsts]; simp
    have hdiv : (100 * (sts.filter (fun v => v.completed)).length) / sts.length < 100 := by
      rw [Nat.div_lt_iff_lt_mul hpos]
      omega
    show (((100 * (sts.filter (fun v => v.completed)).length) / sts.length : Nat) : Int) < 100
    exact_mod_cast hdiv

/-- C9 witness: completing subtask s1 of an already-completed task that
still has the incomplete subtask s2. -/
theorem complete_subtask_on_completed_task_witness :
    (lateSubtaskTask.complete_subtask "T" "s1").2 = true ∧
    (lateSubtaskTask.complete_subtask "T" "s1").1.status = .completed ∧
    (lateSubtaskTask.complete_subtask "T" "s1").1.completed_at =
      lateSubtaskTask.completed_at ∧
    (lateSubtaskTask.complete_subtask "T" "s1").1.progress < 100 :=
  complete_subtask_on_completed_task lateSubtaskTask "T" "s1" (by decide) (by decide)
    (by decide)

/-! ## Summary recomputation on mutation -/

/-- C6: after `add_task`, and after any `remove_task` that actually removed
a task, the stored summary equals `DaySummary.from_tasks` of the current
task list. -/
theorem summary_recomputed_on_mutation (dt : DailyTasks) (t : Task) (tid : String) :
    (dt.add_task t).summary = DaySummary.from_tasks (dt.add_task t).tasks ∧
    ((dt.remove_task tid).2 = true →
      (dt.remove_task tid).1.summary =
        DaySummary.from_tasks (dt.remove_task tid).1.tasks) := by
  constructor
  · rfl
  · intro h
    simp only [DailyTasks.remove_task] at h ⊢
    split_ifs at h ⊢ with hlen
    rfl

/-- C6 witness: adding a task to, and removing task t1 from, the sample day. -/
theorem summary_recomputed_on_mutation_witness :
    (sampleDay.add_task sampleSubtaskDay).summary =
      DaySummary.from_tasks (sampleDay.add_task sampleSubtaskDay).tasks ∧
    (sampleDay.remove_task "t1").1.summary =
      DaySummary.from_tasks (sampleDay.remove_task "t1").1.tasks :=
  ⟨(summary_recomputed_on_mutation sampleDay sampleSubtaskDay "t1").1,
   (summary_recomputed_on_mutation sampleDay sampleSubtaskDay "t1").2 (by decide)⟩

/-! ## Validation: idempotence on valid data, and the cache round trip -/

theorem validateTask_of_valid (now : String) (t : Task) (h : TaskValid t) :
    validateTask now t = some t := by
  obtain ⟨h1, h2, h3, h4, h5, h6, h7, h8, h9, h10, h11, h12⟩ := h
  unfold validateTask
  rw [if_pos ⟨h1, h2, h3, h4, h5, h6, h7, h8, h9⟩]
  have hprog : (if t.status = .completed ∧ t.progress ≠ 100 then (100 : Int)
      else if t.status = .not_started ∧ 0 < t.progress then 0 else t.progress) =
      t.progress := by
    by_cases hc : t.status = .completed
    · obtain ⟨hp, _, _⟩ := h10 hc
      rw [if_neg (by rintro ⟨_, hne⟩; exact hne hp)]
      rw [if_neg (by rintro ⟨hns, _⟩; rw [hc] at hns; cases hns)]
    · rw [if_neg (by rintro ⟨hcc, _⟩; exact hc hcc)]
      by_cases hn : t.status = .not_started
      · have hz := h11 hn
        rw [if_neg (by rintro ⟨_, hpos⟩; omega)]
      · rw [if_neg (by rintro ⟨hns, _⟩; exact hn hns)]
  have hca : (if t.status = .completed ∧ (t.completed_at = none ∨ t.completed_at = some "")
        then some now
      else if t.status ≠ .completed then none else t.completed_at) = t.completed_at := by
    by_cases hc : t.status = .completed
    · obtain ⟨_, hne1, hne2⟩ := h10 hc
      rw [if_neg (by rintro ⟨_, hor⟩; rcases hor with ho | ho; exacts [hne1 ho, hne2 ho])]
      rw [if_neg (by intro hcc; exact hcc hc)]
    · have hnone := h12 hc
      rw [if_neg (by rintro ⟨hcc, _⟩; exact hc hcc), if_pos hc, hnone]
  rw [hprog, hca]

theorem validateTasks_of_valid (now : String) (ts : List Task)
    (h : ∀ t ∈ ts, TaskValid t) : validateTasks now ts = some ts := by
  induction ts with
  | nil => rfl
  | cons t rest ih =>
      unfold validateTasks
      rw [validateTask_of_valid now t (h t (by simp)),
        ih (fun u hu => h u (by simp [hu]))]

theorem revalidateDailyTasks_of_valid (now : String) (dt : DailyTasks)
    (h : DailyTasksValid dt) : revalidateDailyTasks now dt = some dt := by
  unfold revalidateDailyTasks
  rw [if_pos h.1, validateTasks_of_valid now dt.tasks h.2]

/-- C7: saving a valid `DailyTasks` to the local cache and loading the same
date returns the identical entity. -/
theorem save_load_roundtrip (now : String) (cache : CacheStore) (dt : DailyTasks)
    (h : DailyTasksValid dt) :
    load_local_copy now (save_local_copy cache dt) dt.date = some dt := by
  unfold load_local_copy save_local_copy
  have hl : alookup dt.date ((dt.date, dt) :: cache.filter (fun p => p.1 ≠ dt.date)) =
      some dt := by simp [alookup]
  rw [hl]
  exact revalidateDailyTasks_of_valid now dt h

/-- C7 witness: saving and reloading the sample day on an empty cache. -/
theorem save_load_roundtrip_witness :
    load_local_copy "T" (save_local_copy [] sampleDay) sampleDay.date = some sampleDay :=
  save_load_roundtrip "T" [] sampleDay (by decide)

/-! ## Field validation at construction versus assignment -/

/-- C5 counterexample: `setattr`-style assignment (the embedding of
`task.progress = ...`, which pydantic does not validate because
`validate_assignment` is not enabled) accepts 150, an out-of-range progress
value that construction-time validation rejects — the claim that every
field assignment is validated is false. -/
theorem assignment_accepts_out_of_range :
    (setTaskField sampleTask "progress" (.pint 150)).progress = 150 ∧
    ¬ ((setTaskField sampleTask "progress" (.pint 150)).progress ≤ 100) ∧
    validateTask "T" (setTaskField sampleTask "progress" (.pint 150)) = none := by
  decide

/-- C5 (amended): at construction, out-of-range fields are rejected (the
model returns a validation error, never a clamped value), and the only
auto-corrections are the two progress/status couplings plus the coupled
completed_at normalization; plain attribute assignment is not validated. -/
theorem validateTask_spec (now : String) (t : Task) :
    (¬ (1 ≤ t.title.length ∧ t.title.length ≤ 200 ∧
        t.description.length ≤ 1000 ∧
        0 ≤ t.progress ∧ t.progress ≤ 100 ∧
        5 ≤ t.estimated_minutes ∧ t.estimated_minutes ≤ 480 ∧
        0 ≤ t.actual_minutes ∧
        (∀ st ∈ t.subtasks, 1 ≤ st.title.length ∧ st.title.length ≤ 200)) →
      validateTask now t = none) ∧
    ((1 ≤ t.title.length ∧ t.title.length ≤ 200 ∧
        t.description.length ≤ 1000 ∧
        0 ≤ t.progress ∧ t.progress ≤ 100 ∧
        5 ≤ t.estimated_minutes ∧ t.estimated_minutes ≤ 480 ∧
        0 ≤ t.actual_minutes ∧
        (∀ st ∈ t.subtasks, 1 ≤ st.title.length ∧ st.title.length ≤ 200)) →
      ∃ t1, validateTask now t = some t1 ∧
        t1.id = t.id ∧ t1.title = t.title ∧ t1.description = t.description ∧
        t1.priority = t.priority ∧ t1.status = t.status ∧ t1.category = t.category ∧
        t1.estimated_minutes = t.estimated_minutes ∧
        t1.actual_minutes = t.actual_minutes ∧
        t1.time_block = t.time_block ∧ t1.subtasks = t.subtasks ∧ t1.notes = t.notes ∧
        t1.success_criteria = t.success_criteria ∧ t1.dependencies = t.dependencies ∧
        t1.tags = t.tags ∧ t1.created_at = t.created_at ∧ t1.updated_at = t.updated_at ∧
        (t.status = .completed → t1.progress = 100) ∧
        (t.status = .not_started → t1.progress = 0) ∧
        (t.status ≠ .completed → t.status ≠ .not_started → t1.progress = t.progress) ∧
        (t.status = .completed ∧ (t.completed_at = none ∨ t.completed_at = some "") →
          t1.completed_at = some now) ∧
        (t.status = .completed ∧ t.completed_at ≠ none ∧ t.completed_at ≠ some "" →
          t1.completed_at = t.completed_at) ∧
        (t.status ≠ .completed → t1.completed_at = none)) := by
  constructor
  · intro h
    unfold validateTask
    rw [if_neg h]
  · intro hok
    obtain ⟨h1, h2, h3, h4, h5, h6, h7, h8, h9⟩ := hok
    refine ⟨{ t with
        progress :=
          if t.status = .completed ∧ t.progress ≠ 100 then 100
          else if t.status = .not_started ∧ 0 < t.progress then 0
          else t.progress,
        completed_at :=
          if t.status = .completed ∧ (t.completed_at = none ∨ t.completed_at = some "")
            then some now
          else if t.status ≠ .completed then none
          else t.completed_at },
      ?_, rfl, rfl, rfl, rfl, rfl, rfl, rfl, rfl, rfl, rfl, rfl, rfl, rfl, rfl, rfl, rfl,
      ?_, ?_, ?_, ?_, ?_, ?_⟩
    · unfold validateTask
      rw [if_pos ⟨h1, h2, h3, h4, h5, h6, h7, h8, h9⟩]
    · intro hc
      show (if t.status = .completed ∧ t.progress ≠ 100 then (100 : Int)
          else if t.status = .not_started ∧ 0 < t.progress then 0
          else t.progress) = 100
      by_cases hp : t.progress = 100
      · rw [if_neg (by rintro ⟨_, hne⟩; exact hne hp)]
        rw [if_neg (by rintro ⟨hns, _⟩; rw [hc] at hns; cases hns)]
        exact hp
      · rw [if_pos ⟨hc, hp⟩]
    · intro hn
      show (if t.status = .completed ∧ t.progress ≠ 100 then (100 : Int)
          else if t.status = .not_started ∧ 0 < t.progress then 0
          else t.progress) = 0
      rw [if_neg (by rintro ⟨hcc, _⟩; rw [hn] at hcc; cases hcc)]
      by_cases hp : 0 < t.progress
      · rw [if_pos ⟨hn, hp⟩]
      · rw [if_neg (by rintro ⟨_, hpos⟩; exact hp hpos)]
        omega
    · intro hnc hnn
      show (if t.status = .completed ∧ t.progress ≠ 100 then (100 : Int)
          else if t.status = .not_started ∧ 0 < t.progress then 0
          else t.progress) = t.progress
      rw [if_neg (by rintro ⟨hcc, _⟩; exact hnc hcc)]
      rw [if_neg (by rintro ⟨hns, _⟩; exact hnn hns)]
    · intro hcond
      show (if t.status = .completed ∧ (t.completed_at = none ∨ t.completed_at = some "")
            then some now
          else if t.status ≠ .completed then none
          else t.completed_at) = some now
      rw [if_pos hcond]
    · rintro ⟨hc, hn1, hn2⟩
      show (if t.status = .completed ∧ (t.completed_at = none ∨ t.completed_at = some "")
            then some now
          else if t.status ≠ .completed then none
          else t.completed_at) = t.completed_at
      rw [if_neg (by rintro ⟨_, hor⟩; rcases hor with ho | ho; exacts [hn1 ho, hn2 ho])]
      rw [if_neg (by intro hcc; exact hcc hc)]
    · intro hnc
      show (if t.status = .completed ∧ (t.completed_at = none ∨ t.completed_at = some "")
            then some now
          else if t.status ≠ .completed then none
          else t.completed_at) = none
      rw [if_neg (by rintro ⟨hcc, _⟩; exact hnc hcc), if_pos hnc]

/-- A raw task whose progress is out of range. -/
def badProgressTask : Task := { sampleTask with progress := 150 }

/-- C5 witness: construction rejects an out-of-range progress, and accepts
the in-range sample task with only the documented normalizations. -/
theorem validateTask_spec_witness :
    validateTask "T" badProgressTask = none ∧
    (∃ t1, validateTask "T" sampleTask = some t1 ∧
      t1.id = sampleTask.id ∧ t1.title = sampleTask.title ∧
      t1.description = sampleTask.description ∧
      t1.priority = sampleTask.priority ∧ t1.status = sampleTask.status ∧
      t1.category = sampleTask.category ∧
      t1.estimated_minutes = sampleTask.estimated_minutes ∧
      t1.actual_minutes = sampleTask.actual_minutes ∧
      t1.time_block = sampleTask.time_block ∧ t1.subtasks = sampleTask.subtasks ∧
      t1.notes = sampleTask.notes ∧
      t1.success_criteria = sampleTask.success_criteria ∧
      t1.dependencies = sampleTask.dependencies ∧
      t1.tags = sampleTask.tags ∧ t1.created_at = sampleTask.created_at ∧
      t1.updated_at = sampleTask.updated_at ∧
      (sampleTask.status = .completed → t1.progress = 100) ∧
      (sampleTask.status = .not_started → t1.progress = 0) ∧
      (sampleTask.status ≠ .completed → sampleTask.status ≠ .not_started →
        t1.progress = sampleTask.progress) ∧
      (sampleTask.status = .completed ∧
          (sampleTask.completed_at = none ∨ sampleTask.completed_at = some "") →
        t1.completed_at = some "T") ∧
      (sampleTask.status = .completed ∧ sampleTask.completed_at ≠ none ∧
          sampleTask.completed_at ≠ some "" →
        t1.completed_at = sampleTask.completed_at) ∧
      (sampleTask.status ≠ .completed → t1.completed_at = none)) :=
  ⟨(validateTask_spec "T" badProgressTask).1 (by decide),
   (validateTask_spec "T" sampleTask).2 (by decide)⟩

/-! ## Task-id uniqueness under add_task -/

/-- A second task carrying the id that `sampleDay` already contains. -/
def dupIdTask : Task :=
  { id := "t1", title := "Duplicate id",
    created_at := "2025-01-29T09:00:00", updated_at := "2025-01-29T09:00:00" }

/-- C8 counterexample: `add_task` appends unconditionally, so adding a task
whose id already occurs in a set with unique ids produces duplicate ids —
the claimed invariant is not preserved. -/
theorem add_task_duplicate_id :
    (sampleDay.tasks.map Task.id).Nodup ∧
    ¬ ((sampleDay.add_task dupIdTask).tasks.map Task.id).Nodup := by
  decide

/-- C8 (amended): task-id uniqueness is preserved by `add_task` only when
the added task's id is fresh; the operation itself performs no duplicate
check. -/
theorem add_task_fresh_id_keeps_nodup (dt : DailyTasks) (t : Task)
    (h1 : (dt.tasks.map Task.id).Nodup) (h2 : t.id ∉ dt.tasks.map Task.id) :
    ((dt.add_task t).tasks.map Task.id).Nodup := by
  unfold DailyTasks.add_task DailyTasks.update_summary
  simp only [List.map_append, List.map_cons, List.map_nil]
  simp [List.nodup_append, h1, h2]

/-- C8 witness: adding a fresh-id task to the sample day keeps ids unique. -/
theorem add_task_fresh_id_keeps_nodup_witness :
    ((sampleDay.add_task sampleSubtaskDay).tasks.map Task.id).Nodup :=
  add_task_fresh_id_keeps_nodup sampleDay sampleSubtaskDay (by decide) (by decide)

/-! ## The insert race in push (C3) -/

theorem filter_length_map_upsert (db : RemoteDB) (d : String) (rec : DailyTasks)
    (hrec : rec.date = d) :
    ((db.map fun r => if r.date = d then rec else r).filter
        (fun r => r.date = d)).length =
      (db.filter (fun r => r.date = d)).length := by
  induction db with
  | nil => rfl
  | cons x db ih =>
      by_cases hx : x.date = d
      · simp [List.filter_cons, hx, hrec, ih]
      · simp [List.filter_cons, hx, ih]

/-- C3 counterexample: in the insert race (date absent at the existence
check, present at insert time) `push_tasks_smart` reports failure — the
claimed retry-as-update-and-succeed does not happen. -/
theorem push_race_counterexample :
    (push_tasks_smart []
      [{ date := "2025-01-29", tasks := [], summary := {} }] [] []
      "2025-01-29").1.success = false := by
  decide

/-- C3 (amended): when a concurrent writer inserts the date between the
existence check and the insert, `push_tasks_smart` classifies the
duplicate-key failure (error_type constraint_violation, suggested fix to
use UPDATE) and reports failure without retrying, leaving the table
unchanged; `push_tasks`, which uses a single upsert, succeeds in the same
race and preserves the number of records for the date. -/
theorem push_race_reports_failure (dbCheck dbWrite : RemoteDB) (cache : CacheStore)
    (tasks : List Task) (d : String)
    (hdate : pyDateValid d = true)
    (hchk : record_exists dbCheck d = false)
    (hwr : record_exists dbWrite d = true) :
    (push_tasks_smart dbCheck dbWrite cache tasks d).1.success = false ∧
    (push_tasks_smart dbCheck dbWrite cache tasks d).1.error =
      some "duplicate key value violates unique constraint" ∧
    (push_tasks_smart dbCheck dbWrite cache tasks d).1.error_type =
      some "constraint_violation" ∧
    (push_tasks_smart dbCheck dbWrite cache tasks d).1.suggested_fix =
      some "Record already exists. Try using UPDATE instead of INSERT." ∧
    (push_tasks_smart dbCheck dbWrite cache tasks d).2.2 = dbWrite ∧
    (push_tasks (.ok dbWrite) cache tasks d).1.success = true ∧
    ∃ db2, (push_tasks (.ok dbWrite) cache tasks d).2.2 = .ok db2 ∧
      (db2.filter (fun rec => rec.date = d)).length =
        (dbWrite.filter (fun rec => rec.date = d)).length := by
  have hclass : classifyError "duplicate key value violates unique constraint" =
      ("constraint_violation",
       "Record already exists. Try using UPDATE instead of INSERT.") := by decide
  have hins : remoteInsert dbWrite
      { date := d, tasks := tasks, summary := DaySummary.from_tasks tasks } =
      .error "duplicate key value violates unique constraint" := by
    have hdref : ({ date := d, tasks := tasks, summary := DaySummary.from_tasks tasks } : DailyTasks).date = d := rfl
    unfold remoteInsert
    rw [hdref, if_pos hwr]
  have hsmart : push_tasks_smart dbCheck dbWrite cache tasks d =
      ({ success := false, message := "Error syncing tasks for " ++ d,
         error := some "duplicate key value violates unique constraint",
         error_type := some "constraint_violation",
         suggested_fix :=
           some "Record already exists. Try using UPDATE instead of INSERT." },
       save_local_copy cache
         { date := d, tasks := tasks, summary := DaySummary.from_tasks tasks },
       dbWrite) := by
    simp only [push_tasks_smart, hdate, eq_self_iff_true, if_true, hchk,
      Bool.false_eq_true, if_false, hins, hclass]
  have hupsert : remoteUpsert dbWrite
      { date := d, tasks := tasks, summary := DaySummary.from_tasks tasks } =
      (remoteUpdate dbWrite d
        { date := d, tasks := tasks, summary := DaySummary.from_tasks tasks }).1 := by
    have hdref : ({ date := d, tasks := tasks, summary := DaySummary.from_tasks tasks } : DailyTasks).date = d := rfl
    unfold remoteUpsert
    rw [hdref, if_pos hwr]
  have hpush : push_tasks (.ok dbWrite) cache tasks d =
      ({ success := true, message := "Successfully pushed tasks for " ++ d,
         data := some { date := d, tasks := tasks,
                        summary := DaySummary.from_tasks tasks } },
       save_local_copy cache
         { date := d, tasks := tasks, summary := DaySummary.from_tasks tasks },
       .ok (remoteUpsert dbWrite
         { date := d, tasks := tasks, summary := DaySummary.from_tasks tasks })) := by
    simp only [push_tasks, hdate, eq_self_iff_true, if_true]
  refine ⟨by rw [hsmart], by rw [hsmart], by rw [hsmart], by rw [hsmart],
    by rw [hsmart], by rw [hpush],
    remoteUpsert dbWrite
      { date := d, tasks := tasks, summary := DaySummary.from_tasks tasks },
    by rw [hpush], ?_⟩
  rw [hupsert]
  unfold remoteUpdate
  exact filter_length_map_upsert dbWrite d _ rfl

/-- C3 witness: the race on date 2025-01-29 with an empty check snapshot
and one concurrently inserted record. -/
theorem push_race_reports_failure_witness :
    (push_tasks_smart [] [{ date := "2025-01-29", tasks := [], summary := {} }]
      [] [] "2025-01-29").1.success = false ∧
    (push_tasks_smart [] [{ date := "2025-01-29", tasks := [], summary := {} }]
      [] [] "2025-01-29").1.error =
      some "duplicate key value violates unique constraint" ∧
    (push_tasks_smart [] [{ date := "2025-01-29", tasks := [], summary := {} }]
      [] [] "2025-01-29").1.error_type = some "constraint_violation" ∧
    (push_tasks_smart [] [{ date := "2025-01-29", tasks := [], summary := {} }]
      [] [] "2025-01-29").1.suggested_fix =
      some "Record already exists. Try using UPDATE instead of INSERT." ∧
    (push_tasks_smart [] [{ date := "2025-01-29", tasks := [], summary := {} }]
      [] [] "2025-01-29").2.2 =
      [{ date := "2025-01-29", tasks := [], summary := {} }] ∧
    (push_tasks (.ok [{ date := "2025-01-29", tasks := [], summary := {} }])
      [] [] "2025-01-29").1.success = true ∧
    ∃ db2, (push_tasks (.ok [{ date := "2025-01-29", tasks := [], summary := {} }])
      [] [] "2025-01-29").2.2 = .ok db2 ∧
      (db2.filter (fun rec => rec.date = "2025-01-29")).length =
        (([{ date := "2025-01-29", tasks := [], summary := {} }] : RemoteDB).filter
          (fun rec => rec.date = "2025-01-29")).length :=
  push_race_reports_failure [] [{ date := "2025-01-29", tasks := [], summary := {} }]
    [] [] "2025-01-29" (by decide) (by decide) (by decide)

/-! ## Pull fallback semantics (C4) -/

theorem filter_eq_nil_of_not_exists (db : RemoteDB) (d : String)
    (h : record_exists db d = false) :
    db.filter (fun r => r.date = d) = [] := by
  induction db with
  | nil => rfl
  | cons x db ih =>
      unfold record_exists at h ih
      rw [List.any_cons] at h
      rw [Bool.or_eq_false_iff] at h
      rw [List.filter_cons]
      simp only [h.1, Bool.false_eq_true, if_false]
      exact ih h.2

/-- C4 counterexample: the legacy `TaskSync.pull_tasks` with use_cache=false
reports failure (success=false) when the remote has no record for the date
and no local snapshot exists — absence of data is reported as a failure. -/
theorem pull_no_data_counterexample :
    (pull_tasks (.ok []) [] "2025-01-29" "T" false).1.success = false := by
  decide

/-- C4 (amended): for `ImprovedTaskSync.pull_tasks` with use_cache=false the
claimed behavior holds — on remote failure or on a remote with no record the
local snapshot is returned when one loads, and with no record and no local
snapshot the result is success with an empty task set; the legacy
`TaskSync.pull_tasks` instead reports the no-record/no-snapshot case as a
failure. -/
theorem improved_pull_fallback (db : RemoteDB) (e : String) (cache : CacheStore)
    (d now : String) (hdate : pyDateValid d = true) :
    (∀ dt, load_local_copy now cache d = some dt →
      (improved_pull_tasks (.error e) cache d now false).1.success = true ∧
      (improved_pull_tasks (.error e) cache d now false).1.data = some dt) ∧
    (record_exists db d = false →
      (∀ dt, load_local_copy now cache d = some dt →
        (improved_pull_tasks (.ok db) cache d now false).1.success = true ∧
        (improved_pull_tasks (.ok db) cache d now false).1.data = some dt) ∧
      (load_local_copy now cache d = none →
        (improved_pull_tasks (.ok db) cache d now false).1.success = true ∧
        (improved_pull_tasks (.ok db) cache d now false).1.data =
          some { date := d, tasks := [], summary := {} })) := by
  constructor
  · intro dt hdt
    have hres : improved_pull_tasks (.error e) cache d now false =
        ({ success := true,
           message := "Loaded tasks from local cache (Supabase error)",
           data := some dt }, cache) := by
      simp only [improved_pull_tasks, Bool.false_eq_true, if_false, hdt]
    rw [hres]
    exact ⟨rfl, rfl⟩
  · intro hnone
    have hfil : db.filter (fun r => r.date = d) = [] :=
      filter_eq_nil_of_not_exists db d hnone
    constructor
    · intro dt hdt
      have hres : improved_pull_tasks (.ok db) cache d now false =
          ({ success := true,
             message := "Loaded tasks from local cache (Supabase returned no data)",
             data := some dt }, cache) := by
        simp only [improved_pull_tasks, Bool.false_eq_true, if_false, hfil, hdt]
      rw [hres]
      exact ⟨rfl, rfl⟩
    · intro hmiss
      have hres : improved_pull_tasks (.ok db) cache d now false =
          ({ success := true, message := "No tasks found for " ++ d,
             data := some { date := d } }, cache) := by
        simp only [improved_pull_tasks, Bool.false_eq_true, if_false, hfil, hmiss,
          hdate, eq_self_iff_true, if_true]
      rw [hres]
      exact ⟨rfl, rfl⟩

/-- C4 witness: remote failure with a cached sample day, and an empty remote
with and without the cached snapshot. -/
theorem improved_pull_fallback_witness :
    ((improved_pull_tasks (.error "network down")
        [("2025-01-29", sampleDay)] "2025-01-29" "T" false).1.success = true ∧
      (improved_pull_tasks (.error "network down")
        [("2025-01-29", sampleDay)] "2025-01-29" "T" false).1.data = some sampleDay) ∧
    ((improved_pull_tasks (.ok []) [] "2025-01-29" "T" false).1.success = true ∧
      (improved_pull_tasks (.ok []) [] "2025-01-29" "T" false).1.data =
        some { date := "2025-01-29", tasks := [], summary := {} }) :=
  ⟨(improved_pull_fallback [] "network down" [("2025-01-29", sampleDay)]
      "2025-01-29" "T" (by decide)).1 sampleDay
      (by
        have hll : load_local_copy "T" [("2025-01-29", sampleDay)] "2025-01-29" = revalidateDailyTasks "T" sampleDay := rfl
        rw [hll]
        exact revalidateDailyTasks_of_valid "T" sampleDay (by decide)),
   ((improved_pull_fallback [] "e" [] "2025-01-29" "T" (by decide)).2
      (by decide)).2 (by decide)⟩

/-! ## update_task and the setattr attribute surface (C10) -/

theorem hasTaskField_imp_attr (k : String) (h : hasTaskField k = true) :
    hasTaskAttr k = true := by
  unfold hasTaskAttr
  rw [h]
  rfl

theorem applyTaskUpdates_skip :
    ∀ (updates : List (String × PyValue)) (tk : Task),
      (∀ kv ∈ updates, hasTaskAttr kv.1 = false) →
      applyTaskUpdates tk updates = some (.ok tk) := by
  intro updates
  induction updates with
  | nil => intro tk _; rfl
  | cons kv rest ih =>
      intro tk h
      have hk := h kv (by simp)
      unfold applyTaskUpdates
      simp only [hk, Bool.false_eq_true, if_false]
      exact ih tk (fun u hu => h u (by simp [hu]))

theorem applyTaskUpdates_cons (t : Task) (kv : String × PyValue)
    (rest : List (String × PyValue)) :
    applyTaskUpdates t (kv :: rest) =
      (if hasTaskAttr kv.1 then
        if hasTaskField kv.1 then
          match fieldSetter kv.1 kv.2 with
          | some f => applyTaskUpdates (f t) rest
          | none => none
        else some (.error ("object has no field " ++ kv.1))
      else applyTaskUpdates t rest) := rfl

theorem applyTaskUpdates_filter :
    ∀ (updates : List (String × PyValue)) (tk : Task),
      (∀ kv ∈ updates, hasTaskAttr kv.1 = true → hasTaskField kv.1 = true) →
      applyTaskUpdates tk updates =
        applyTaskUpdates tk (updates.filter (fun kv => hasTaskField kv.1)) := by
  intro updates
  induction updates with
  | nil => intro tk _; rfl
  | cons kv rest ih =>
      intro tk hattr
      have hrest : ∀ u ∈ rest, hasTaskAttr u.1 = true → hasTaskField u.1 = true :=
        fun u hu => hattr u (by simp [hu])
      rw [List.filter_cons]
      by_cases hf : hasTaskField kv.1 = true
      · have ha := hasTaskField_imp_attr kv.1 hf
        rw [if_pos hf, applyTaskUpdates_cons, applyTaskUpdates_cons]
        simp only [ha, hf, eq_self_iff_true, if_true]
        cases hfs : fieldSetter kv.1 kv.2 with
        | none => rfl
        | some f => exact ih (f tk) hrest
      · have ha : hasTaskAttr kv.1 = false := by
          cases hv : hasTaskAttr kv.1
          · rfl
          · exact absurd (hattr kv (by simp) hv) hf
        rw [if_neg hf, applyTaskUpdates_cons]
        simp only [ha, Bool.false_eq_true, if_false]
        exact ih tk hrest

theorem applyTaskUpdates_ok :
    ∀ (updates : List (String × PyValue)) (tk : Task),
      (∀ kv ∈ updates, hasTaskAttr kv.1 = true → hasTaskField kv.1 = true) →
      (∀ kv ∈ updates, hasTaskField kv.1 = true →
        (fieldSetter kv.1 kv.2).isSome = true) →
      ∃ t1, applyTaskUpdates tk updates = some (.ok t1) := by
  intro updates
  induction updates with
  | nil => intro tk _ _; exact ⟨tk, rfl⟩
  | cons kv rest ih =>
      intro tk hattr hwt
      have hrest_attr : ∀ u ∈ rest, hasTaskAttr u.1 = true → hasTaskField u.1 = true :=
        fun u hu => hattr u (by simp [hu])
      have hrest_wt : ∀ u ∈ rest, hasTaskField u.1 = true →
          (fieldSetter u.1 u.2).isSome = true :=
        fun u hu => hwt u (by simp [hu])
      by_cases hf : hasTaskField kv.1 = true
      · have ha := hasTaskField_imp_attr kv.1 hf
        obtain ⟨f, hfs⟩ := Option.isSome_iff_exists.mp (hwt kv (by simp) hf)
        obtain ⟨t1, ht1⟩ := ih (f tk) hrest_attr hrest_wt
        refine ⟨t1, ?_⟩
        unfold applyTaskUpdates
        simp only [ha, hf, eq_self_iff_true, if_true, hfs]
        exact ht1
      · have ha : hasTaskAttr kv.1 = false := by
          cases hv : hasTaskAttr kv.1
          · rfl
          · exact absurd (hattr kv (by simp) hv) hf
        obtain ⟨t1, ht1⟩ := ih tk hrest_attr hrest_wt
        refine ⟨t1, ?_⟩
        unfold applyTaskUpdates
        simp only [ha, Bool.false_eq_true, if_false]
        exact ht1

theorem applyTaskUpdates_raises :
    ∀ (updates : List (String × PyValue)) (tk : Task),
      (∀ kv ∈ updates, hasTaskField kv.1 = true →
        (fieldSetter kv.1 kv.2).isSome = true) →
      (∃ kv ∈ updates, hasTaskAttr kv.1 = true ∧ hasTaskField kv.1 = false) →
      ∃ e, applyTaskUpdates tk updates = some (.error e) := by
  intro updates
  induction updates with
  | nil => intro tk _ hex; simp at hex
  | cons kv rest ih =>
      intro tk hwt hex
      have hrest_wt : ∀ u ∈ rest, hasTaskField u.1 = true →
          (fieldSetter u.1 u.2).isSome = true :=
        fun u hu => hwt u (by simp [hu])
      by_cases hf : hasTaskField kv.1 = true
      · have ha := hasTaskField_imp_attr kv.1 hf
        obtain ⟨f, hfs⟩ := Option.isSome_iff_exists.mp (hwt kv (by simp) hf)
        have hex2 : ∃ u ∈ rest, hasTaskAttr u.1 = true ∧ hasTaskField u.1 = false := by
          obtain ⟨u, hu, hua, huf⟩ := hex
          rcases List.mem_cons.mp hu with rfl | hu2
          · rw [hf] at huf; cases huf
          · exact ⟨u, hu2, hua, huf⟩
        obtain ⟨e, he⟩ := ih (f tk) hrest_wt hex2
        refine ⟨e, ?_⟩
        unfold applyTaskUpdates
        simp only [ha, hf, eq_self_iff_true, if_true, hfs]
        exact he
      · by_cases ha : hasTaskAttr kv.1 = true
        · refine ⟨"object has no field " ++ kv.1, ?_⟩
          have hf2 : hasTaskField kv.1 = false := by
            cases hv : hasTaskField kv.1
            · rfl
            · exact absurd hv hf
          unfold applyTaskUpdates
          simp only [ha, eq_self_iff_true, if_true, hf2, Bool.false_eq_true, if_false]
        · have ha2 : hasTaskAttr kv.1 = false := by
            cases hv : hasTaskAttr kv.1
            · rfl
            · exact absurd hv ha
          have hex2 : ∃ u ∈ rest, hasTaskAttr u.1 = true ∧ hasTaskField u.1 = false := by
            obtain ⟨u, hu, hua, huf⟩ := hex
            rcases List.mem_cons.mp hu with rfl | hu2
            · exact absurd hua ha
            · exact ⟨u, hu2, hua, huf⟩
          obtain ⟨e, he⟩ := ih tk hrest_wt hex2
          refine ⟨e, ?_⟩
          unfold applyTaskUpdates
          simp only [ha2, Bool.false_eq_true, if_false]
          exact he

theorem updateFirstTask_ok :
    ∀ (ts : List Task) (tid : String) (updates : List (String × PyValue)) (now : String),
      tid ∈ ts.map Task.id →
      (∀ t : Task, ∃ t1, applyTaskUpdates t updates = some (.ok t1)) →
      ∃ ts1, updateFirstTask ts tid updates now = some (.ok (some ts1)) := by
  intro ts
  induction ts with
  | nil => intro tid updates now h _; simp at h
  | cons t rest ih =>
      intro tid updates now h happly
      by_cases ht : t.id = tid
      · obtain ⟨t1, ht1⟩ := happly t
        refine ⟨{ t1 with updated_at := now } :: rest, ?_⟩
        unfold updateFirstTask
        rw [if_pos ht, ht1]
      · have h2 : tid ∈ rest.map Task.id := by
          rcases (by simpa using h : tid = t.id ∨ ∃ b ∈ rest, b.id = tid) with
            h3 | ⟨b, hb, hbid⟩
          · exact absurd h3.symm ht
          · exact List.mem_map.mpr ⟨b, hb, hbid⟩
        obtain ⟨ts1, hts1⟩ := ih tid updates now h2 happly
        refine ⟨t :: ts1, ?_⟩
        unfold updateFirstTask
        rw [if_neg ht, hts1]

theorem updateFirstTask_raises :
    ∀ (ts : List Task) (tid : String) (updates : List (String × PyValue)) (now : String),
      tid ∈ ts.map Task.id →
      (∀ t : Task, ∃ e, applyTaskUpdates t updates = some (.error e)) →
      ∃ e, updateFirstTask ts tid updates now = some (.error e) := by
  intro ts
  induction ts with
  | nil => intro tid updates now h _; simp at h
  | cons t rest ih =>
      intro tid updates now h happly
      by_cases ht : t.id = tid
      · obtain ⟨e, he⟩ := happly t
        refine ⟨e, ?_⟩
        unfold updateFirstTask
        rw [if_pos ht, he]
      · have h2 : tid ∈ rest.map Task.id := by
          rcases (by simpa using h : tid = t.id ∨ ∃ b ∈ rest, b.id = tid) with
            h3 | ⟨b, hb, hbid⟩
          · exact absurd h3.symm ht
          · exact List.mem_map.mpr ⟨b, hb, hbid⟩
        obtain ⟨e, he⟩ := ih tid updates now h2 happly
        refine ⟨e, ?_⟩
        unfold updateFirstTask
        rw [if_neg ht, he]

/-- C10 counterexample: a key naming an existing non-field Task attribute
(the method mark_completed) is not silently skipped — `setattr` raises
pydantic's no-field error and `update_task` reports failure, refuting the
claim that for every updates map non-field keys are skipped without error
and the operation reports success. -/
theorem update_task_method_key_fails :
    (update_task (.ok []) [("2025-01-29", sampleDay)] "t1"
      [("mark_completed", PyValue.pstr "x")] "2025-01-29" "T").map
        (fun res => res.1.success) = some false ∧
    (update_task (.ok []) [("2025-01-29", sampleDay)] "t1"
      [("mark_completed", PyValue.pstr "x")] "2025-01-29" "T").map
        (fun res => res.1.error) =
      some (some "object has no field mark_completed") := by
  decide

/-- C10 (amended): in `update_task`, a key that names a declared Task model
field is applied; a key that names no Task attribute at all is silently
skipped — it changes nothing and, with the cached day holding the task id,
the operation still succeeds, pushing the updated list; but a key that
names a non-field Task attribute (such as a method) makes `setattr` raise
pydantic's no-field error and `update_task` reports failure. -/
theorem update_task_key_behavior (db : RemoteDB) (cache : CacheStore)
    (dt : DailyTasks) (task_id : String) (updates : List (String × PyValue))
    (d now : String)
    (hcache : alookup d cache = some dt)
    (hvalid : DailyTasksValid dt)
    (hdd : dt.date = d)
    (hid : task_id ∈ dt.tasks.map Task.id)
    (hwt : ∀ kv ∈ updates, hasTaskField kv.1 = true →
      (fieldSetter kv.1 kv.2).isSome = true) :
    (∀ tk, (∀ kv ∈ updates, hasTaskAttr kv.1 = false) →
      applyTaskUpdates tk updates = some (.ok tk)) ∧
    ((∀ kv ∈ updates, hasTaskAttr kv.1 = true → hasTaskField kv.1 = true) →
      ∀ tk, applyTaskUpdates tk updates =
        applyTaskUpdates tk (updates.filter (fun kv => hasTaskField kv.1))) ∧
    ((∀ kv ∈ updates, hasTaskAttr kv.1 = true → hasTaskField kv.1 = true) →
      ∃ res tasks1, update_task (.ok db) cache task_id updates d now = some res ∧
        res.1.success = true ∧
        updateFirstTask dt.tasks task_id updates now = some (.ok (some tasks1)) ∧
        res.2.2 = .ok (remoteUpsert db { date := d, tasks := tasks1, summary := DaySummary.from_tasks tasks1 })) ∧
    ((∃ kv ∈ updates, hasTaskAttr kv.1 = true ∧ hasTaskField kv.1 = false) →
      ∃ res, update_task (.ok db) cache task_id updates d now = some res ∧
        res.1.success = false) := by
  have hload : load_local_copy now cache d = some dt := by
    unfold load_local_copy
    rw [hcache]
    exact revalidateDailyTasks_of_valid now dt hvalid
  have hre : revalidateDailyTasks now dt = some dt :=
    revalidateDailyTasks_of_valid now dt hvalid
  have hpull : pull_tasks (.ok db) cache d now true =
      ({ success := true,
         message := "Loaded tasks from local cache for " ++ d,
         data := some dt }, cache) := by
    simp only [pull_tasks, eq_self_iff_true, if_true, hload]
  have hd : pyDateValid d = true := by rw [← hdd]; exact hvalid.1
  refine ⟨fun tk h => applyTaskUpdates_skip updates tk h, ?_, ?_, ?_⟩
  · intro hattr tk
    exact applyTaskUpdates_filter updates tk hattr
  · intro hattr
    obtain ⟨tasks1, htasks1⟩ := updateFirstTask_ok dt.tasks task_id updates now hid
      (fun t => applyTaskUpdates_ok updates t hattr hwt)
    have hstep : update_task (.ok db) cache task_id updates d now =
        some (push_tasks (.ok db) cache tasks1 d) := by
      simp only [update_task, hpull, hre, htasks1, eq_self_iff_true, if_true]
    have hpush : push_tasks (.ok db) cache tasks1 d =
        ({ success := true, message := "Successfully pushed tasks for " ++ d,
           data := some { date := d, tasks := tasks1,
                          summary := DaySummary.from_tasks tasks1 } },
         save_local_copy cache
           { date := d, tasks := tasks1, summary := DaySummary.from_tasks tasks1 },
         .ok (remoteUpsert db
           { date := d, tasks := tasks1, summary := DaySummary.from_tasks tasks1 })) := by
      simp only [push_tasks, hd, eq_self_iff_true, if_true]
    refine ⟨({ success := true, message := "Successfully pushed tasks for " ++ d,
               data := some { date := d, tasks := tasks1,
                              summary := DaySummary.from_tasks tasks1 } },
             save_local_copy cache
               { date := d, tasks := tasks1, summary := DaySummary.from_tasks tasks1 },
             .ok (remoteUpsert db
               { date := d, tasks := tasks1, summary := DaySummary.from_tasks tasks1 })),
      tasks1, ?_, rfl, htasks1, rfl⟩
    rw [hstep, hpush]
  · intro hex
    obtain ⟨e, he⟩ := updateFirstTask_raises dt.tasks task_id updates now hid
      (fun t => applyTaskUpdates_raises updates t hwt hex)
    have hstep : update_task (.ok db) cache task_id updates d now =
        some ({ success := false, message := "Error updating task " ++ task_id,
                error := some e }, cache, .ok db) := by
      simp only [update_task, hpull, hre, he, eq_self_iff_true, if_true]
    refine ⟨({ success := false, message := "Error updating task " ++ task_id,
               error := some e }, cache, .ok db), ?_, rfl⟩
    rw [hstep]

/-- C10 witness: updating task t1 of the cached sample day with the key
bogus_key, which names no Task attribute. -/
theorem update_task_key_behavior_witness :
    (∀ tk, (∀ kv ∈ [("bogus_key", PyValue.pint 5)], hasTaskAttr kv.1 = false) →
      applyTaskUpdates tk [("bogus_key", PyValue.pint 5)] = some (.ok tk)) ∧
    ((∀ kv ∈ [("bogus_key", PyValue.pint 5)], hasTaskAttr kv.1 = true →
        hasTaskField kv.1 = true) →
      ∀ tk, applyTaskUpdates tk [("bogus_key", PyValue.pint 5)] =
        applyTaskUpdates tk ([("bogus_key", PyValue.pint 5)].filter
          (fun kv => hasTaskField kv.1))) ∧
    ((∀ kv ∈ [("bogus_key", PyValue.pint 5)], hasTaskAttr kv.1 = true →
        hasTaskField kv.1 = true) →
      ∃ res tasks1, update_task (.ok []) [("2025-01-29", sampleDay)] "t1"
          [("bogus_key", PyValue.pint 5)] "2025-01-29" "T" = some res ∧
        res.1.success = true ∧
        updateFirstTask sampleDay.tasks "t1" [("bogus_key", PyValue.pint 5)] "T" =
          some (.ok (some tasks1)) ∧
        res.2.2 = .ok (remoteUpsert [] { date := "2025-01-29", tasks := tasks1, summary := DaySummary.from_tasks tasks1 })) ∧
    ((∃ kv ∈ [("bogus_key", PyValue.pint 5)], hasTaskAttr kv.1 = true ∧
        hasTaskField kv.1 = false) →
      ∃ res, update_task (.ok []) [("2025-01-29", sampleDay)] "t1"
          [("bogus_key", PyValue.pint 5)] "2025-01-29" "T" = some res ∧
        res.1.success = false) :=
  update_task_key_behavior [] [("2025-01-29", sampleDay)] sampleDay "t1"
    [("bogus_key", PyValue.pint 5)] "2025-01-29" "T"
    (by rfl) (by decide) (by decide) (by decide) (by decide)

end TMS
